import Mathlib

/-!
Verification of the Kubernetes executor core of a CI runner
(`executors/kubernetes/kubernetes.go`), as a shallow embedding in Lean 4.

Go errors are modelled by the inductive `GoError`; `errors.As` over the
wrapping chain built with `fmt.Errorf("...: %w", err)` (and the `Unwrap` of
`common.BuildError`) is modelled by the structurally recursive `as...`
functions.  Channel sends and trace writes are modelled as values returned by
the embedded step functions.  Kubernetes cluster state is a record of the
object names present per resource kind; a delete of an absent name is the
404 failure the API would return.
-/

namespace KubernetesExecutor

/-- Owner reference metadata attached to dependent objects
(`metav1.OwnerReference`, the fields used by `buildPodReferences`). -/
structure OwnerReference where
  apiVersion : String
  kind : String
  name : String
  uid : String
deriving Repr, DecidableEq

/-- Object metadata, restricted to the fields the executor reads or writes. -/
structure ObjectMeta where
  name : String
  generateName : String
  nsName : String
  uid : String
  ownerReferences : List OwnerReference
deriving Repr, DecidableEq

/-- A container of the build pod: the fields set by `buildContainer` and
`buildPermissionsInitContainer` that the claims are about. -/
structure Container where
  name : String
  image : String
  imagePullPolicy : String
  command : List String
deriving Repr, DecidableEq

/-- The build pod, restricted to the fields the claims are about
(`api.Pod`: metadata, restart policy, container lists, status phase). -/
structure PodObj where
  meta : ObjectMeta
  restartPolicy : String
  initContainers : List Container
  containers : List Container
  phase : String
deriving Repr, DecidableEq

/-- The image-pull credentials secret handle held by the executor. -/
structure SecretObj where
  name : String
  ownerReferences : List OwnerReference
deriving Repr, DecidableEq

/-- The scripts config-map handle held by the executor. -/
structure ConfigMapObj where
  name : String
  ownerReferences : List OwnerReference
deriving Repr, DecidableEq

/-- A proxy `api.Service` as produced by `prepareServiceConfig`: generated
name plus the owner references installed at creation time. -/
structure ServiceObj where
  generateName : String
  ownerReferences : List OwnerReference
deriving Repr, DecidableEq

/-- Go error values reachable in the executor, as a closed syntax tree.
`imagePull` stands for `*pull.ImagePullError`, `codeExit` for
`exec.CodeExitError`, `commandTerminated` for `*commandTerminatedError`,
`statusErr` for `*kubeerrors.StatusError` (HTTP code plus `Details.Kind`,
`none` when `Details` is nil), `podPhase` for `*podPhaseError`,
`buildError` for `*common.BuildError` (inner error plus `ExitCode`),
`wrapped` for `fmt.Errorf("msg: %w", inner)`, and `msg` for any other
error value. -/
inductive GoError where
  | imagePull (image : String)
  | codeExit (code : Int)
  | commandTerminated (exitCode : Int)
  | statusErr (httpCode : Nat) (detailsKind : Option String)
  | podPhase (podName : String) (phase : String)
  | buildError (inner : GoError) (exitCode : Int)
  | wrapped (m : String) (inner : GoError)
  | msg (m : String)
deriving Repr, DecidableEq

namespace GoError

/-- The target extraction of `errors.As(err, &imagePullErr)`: walks the
unwrap chain (`%w` wrapping and `BuildError.Inner`) looking for a
`*pull.ImagePullError`; returns the image it carries. -/
def asImagePull : GoError → Option String
  | .imagePull image => some image
  | .wrapped _ inner => asImagePull inner
  | .buildError inner _ => asImagePull inner
  | _ => none

/-- The target extraction of `errors.As(err, &exitErr)` for
`exec.CodeExitError`: returns the embedded exit code. -/
def asCodeExit : GoError → Option Int
  | .codeExit code => some code
  | .wrapped _ inner => asCodeExit inner
  | .buildError inner _ => asCodeExit inner
  | _ => none

/-- The target extraction of `errors.As(err, &terminatedError)` for
`*commandTerminatedError`: returns the embedded exit code. -/
def asCommandTerminated : GoError → Option Int
  | .commandTerminated exitCode => some exitCode
  | .wrapped _ inner => asCommandTerminated inner
  | .buildError inner _ => asCommandTerminated inner
  | _ => none

/-- The target extraction of `errors.As(err, &statusErr)` for
`*kubeerrors.StatusError`: returns the HTTP code and `Details.Kind`. -/
def asStatusErr : GoError → Option (Nat × Option String)
  | .statusErr httpCode detailsKind => some (httpCode, detailsKind)
  | .wrapped _ inner => asStatusErr inner
  | .buildError inner _ => asStatusErr inner
  | _ => none

/-- Whether the error value is a `*common.BuildError` at the top level,
i.e. is reported to the coordinator as a build (script) failure. -/
def isBuildError : GoError → Bool
  | .buildError _ _ => true
  | _ => false

end GoError

/-- Translation of `IsKubernetesPodNotFoundError`: a `StatusError` with HTTP
code 404 whose `Details` is non-nil and has `Kind == "pods"`.  The argument
is an optional error because the Go function accepts a nil error. -/
def isKubernetesPodNotFoundError : Option GoError → Bool
  | none => false
  | some e =>
    match e.asStatusErr with
    | some (httpCode, some kind) => httpCode == 404 && kind == "pods"
    | _ => false

/-- Translation of the constant `unknownLogProcessorExitCode = 1000`. -/
def unknownLogProcessorExitCode : Int := 1000

/-- Translation of `shells.TrapCommandExitStatus`: the decoded JSON payload
of a sentinel line (`CommandExitCode` plus optional `Script`). -/
structure TrapCommandExitStatus where
  commandExitCode : Int
  script : Option String
deriving Repr, DecidableEq

/-- Translation of `getExitCode`: extract the exit code from an inner
`exec.CodeExitError`, falling back to `unknownLogProcessorExitCode` when the
error is nil or not of that type. -/
def getExitCode : Option GoError → Int
  | none => unknownLogProcessorExitCode
  | some e =>
    match e.asCodeExit with
    | some code => code
    | none => unknownLogProcessorExitCode

/-- One iteration of the `logsCh` branch of `processLogs` on a delivered
line.  `tryU` abstracts `shells.TrapCommandExitStatus.TryUnmarshal`.  The
first component is the status sent on `remoteProcessTerminated` (if any),
the second the chunk written to the user-visible trace (if any): a sentinel
line is sent and not written, any other line is written with a newline
appended. -/
def processLine (tryU : String → Option TrapCommandExitStatus) (line : String) :
    Option TrapCommandExitStatus × Option String :=
  match tryU line with
  | some status => (some status, none)
  | none => (none, some (line ++ "\n"))

/-- The `logsCh` branch of `processLogs` folded over a list of delivered
lines: all statuses sent on `remoteProcessTerminated`, and all chunks
written to the trace, in order. -/
def processLines (tryU : String → Option TrapCommandExitStatus) :
    List String → List TrapCommandExitStatus × List String
  | [] => ([], [])
  | line :: rest =>
    let step := processLine tryU line
    let tail := processLines tryU rest
    (step.1.toList ++ tail.1, step.2.toList ++ tail.2)

/-- The `errCh` branch of `processLogs`: fabricate an exit status from the
log-processor error and send it on `remoteProcessTerminated` (the `Script`
field is kept nil). -/
def processLogsErrStatus (err : Option GoError) : TrapCommandExitStatus :=
  { commandExitCode := getExitCode err, script := none }

/-- Translation of the value delivered on the `runInContainer` error
channel, as read by `runWithAttach`: the attach error when the retried
attach failed, otherwise nil for a zero exit status and a
`*commandTerminatedError` carrying the exit code for a non-zero one. -/
def runInContainerResult (attachErr : Option GoError)
    (status : TrapCommandExitStatus) : Option GoError :=
  match attachErr with
  | some e => some e
  | none =>
    if status.commandExitCode = 0 then none
    else some (.commandTerminated status.commandExitCode)

/-- Translation of the first `select` branch of `runWithAttach`: a result
that unwraps to a `*commandTerminatedError` is wrapped into a
`*common.BuildError` carrying that exit code; any other result is returned
unchanged. -/
def runWithAttachClassify (r : Option GoError) : Option GoError :=
  match r with
  | none => none
  | some e =>
    match e.asCommandTerminated with
    | some exitCode => some (.buildError e exitCode)
    | none => some e

/-- Translation of the `podStatusCh` branch of `runWithAttach`: a pod
not-found error is surfaced unwrapped, every other pod-status error is
wrapped into a `*common.BuildError` (with the zero-valued `ExitCode`). -/
def podStatusBranch (e : GoError) : GoError :=
  if isKubernetesPodNotFoundError (some e) then e
  else .buildError e 0

/-- Translation of `checkPodStatus`: a 404 from the pod `Get` is returned
as the typed not-found error, any other `Get` failure is only logged
(returns nil), and a pod in a phase other than `Running` yields a
`*podPhaseError`. -/
def checkPodStatus (podName : String) (getRes : Except GoError PodObj) :
    Option GoError :=
  match getRes with
  | .error e =>
    if isKubernetesPodNotFoundError (some e) then some e
    else none
  | .ok pod =>
    if pod.phase ≠ "Running" then some (.podPhase podName pod.phase)
    else none

/-- The mutable fields of the `executor` struct that the lifecycle claims
are about: the pod, credentials-secret, scripts-config-map and proxy-service
handles. -/
structure ExecState where
  pod : Option PodObj
  credentials : Option SecretObj
  configMap : Option ConfigMapObj
  services : List ServiceObj
deriving Repr, DecidableEq

/-- Cluster-side state: the names of the objects currently present, per
resource kind. -/
structure Cluster where
  pods : List String
  secrets : List String
  configMaps : List String
deriving Repr, DecidableEq

/-- Translation of the package-level variable
`PropagationPolicy = metav1.DeletePropagationForeground`. -/
def PropagationPolicy : String := "Foreground"

/-- A delete call issued against the cluster: resource kind, object name,
and the propagation policy passed in the delete options. -/
structure DeleteRequest where
  kind : String
  name : String
  propagationPolicy : Option String
deriving Repr, DecidableEq

/-- A Kubernetes delete of `name` from the names `l` of one resource kind:
removing a present object succeeds, deleting an absent one returns the 404
`StatusError` (details kind `kind`) the API server would produce. -/
def deleteFrom (kind : String) (l : List String) (name : String) :
    List String × Option GoError :=
  if name ∈ l then (l.filter (fun n => n ≠ name), none)
  else (l, some (.statusErr 404 (some kind)))

/-- Translation of `cleanupResources`: delete the pod (foreground
propagation) when the pod handle is non-nil, then the credentials secret and
the scripts config-map when the respective handle is non-nil and carries no
owner references.  Returns the new cluster, the delete calls issued, and the
`Errorln` log entries; the Go function returns no error. -/
def cleanupResources (st : ExecState) (c : Cluster) :
    Cluster × List DeleteRequest × List String :=
  let podStep : Cluster × List DeleteRequest × List String :=
    match st.pod with
    | some p =>
      let d := deleteFrom "pods" c.pods p.meta.name
      ({ c with pods := d.1 },
       [⟨"pods", p.meta.name, some PropagationPolicy⟩],
       match d.2 with
       | some _ => ["Error cleaning up pod"]
       | none => [])
    | none => (c, [], [])
  let c1 := podStep.1
  let secretStep : Cluster × List DeleteRequest × List String :=
    match st.credentials with
    | some cr =>
      if cr.ownerReferences = [] then
        let d := deleteFrom "secrets" c1.secrets cr.name
        ({ c1 with secrets := d.1 },
         [⟨"secrets", cr.name, none⟩],
         match d.2 with
         | some _ => ["Error cleaning up secrets"]
         | none => [])
      else (c1, [], [])
    | none => (c1, [], [])
  let c2 := secretStep.1
  let cmStep : Cluster × List DeleteRequest × List String :=
    match st.configMap with
    | some cm =>
      if cm.ownerReferences = [] then
        let d := deleteFrom "configmaps" c2.configMaps cm.name
        ({ c2 with configMaps := d.1 },
         [⟨"configmaps", cm.name, none⟩],
         match d.2 with
         | some _ => ["Error cleaning up configmap"]
         | none => [])
      else (c2, [], [])
    | none => (c2, [], [])
  (cmStep.1,
   podStep.2.1 ++ secretStep.2.1 ++ cmStep.2.1,
   podStep.2.2 ++ secretStep.2.2 ++ cmStep.2.2)

/-- Translation of `executor.Finish`: when the recorded error is the typed
pod-not-found error the pod handle is nulled (so `Cleanup` will not try to
delete the pod again); otherwise the executor fields are untouched.  The
trailing `AbstractExecutor.Finish` call does not touch these fields. -/
def Finish (st : ExecState) (err : Option GoError) : ExecState :=
  if isKubernetesPodNotFoundError err then { st with pod := none } else st

/-- Events emitted by the `Run` retry loop, in order: `stageRun a` is the
execution of the stage body (`runWithExecLegacy` or `runWithAttach`) at
attempt `a`, `cleanupResourcesCall` is the `s.cleanupResources()` call of
the retry path, and `podCleared` is the `s.pod = nil` assignment that
re-enters lazy pod construction. -/
inductive RunEvent where
  | stageRun (attempt : Nat)
  | cleanupResourcesCall
  | podCleared
deriving Repr, DecidableEq

/-- Result of the `Run` retry loop under a fuel bound: either the error
value `Run` returns (nil on success), or fuel exhaustion (the Go loop is
unbounded). -/
inductive RunResult where
  | ret (err : Option GoError)
  | outOfFuel
deriving Repr, DecidableEq

/-- The collaborators of `Run`, abstracted: `stageErr a` is the error
returned by the stage execution at attempt `a`, and `updatePolicy a image`
is the verdict of `pullManager.UpdatePolicyForImage(a, imagePullErr)` for
the image-pull error observed at attempt `a`. -/
structure RunEnv where
  stageErr : Nat → Option GoError
  updatePolicy : Nat → String → Bool

/-- Translation of the `for attempt := 1; ; attempt++` loop body of
`executor.Run`, started at an arbitrary attempt: run the stage; when the
error unwraps to a `*pull.ImagePullError` and the pull manager advances the
policy, clean up all resources, clear the pod handle and retry at
`attempt+1`; otherwise return the stage error unchanged. -/
def runFrom (env : RunEnv) : Nat → Nat → RunResult × List RunEvent
  | 0, _ => (.outOfFuel, [])
  | fuel + 1, attempt =>
    let err := env.stageErr attempt
    let retry :=
      match err with
      | some e =>
        match e.asImagePull with
        | some image => env.updatePolicy attempt image
        | none => false
      | none => false
    if retry then
      let rest := runFrom env fuel (attempt + 1)
      (rest.1, .stageRun attempt :: .cleanupResourcesCall :: .podCleared :: rest.2)
    else
      (.ret err, [.stageRun attempt])

/-- Translation of `executor.Run`: the retry loop entered with the attempt
counter at 1. -/
def Run (env : RunEnv) (fuel : Nat) : RunResult × List RunEvent :=
  runFrom env fuel 1

/-- Translation of `buildPodReferences`: the single owner reference
(apiVersion `v1`, kind `Pod`) naming the created pod. -/
def buildPodReferences (p : PodObj) : List OwnerReference :=
  [{ apiVersion := "v1", kind := "Pod", name := p.meta.name, uid := p.meta.uid }]

/-- Injected failures of the Kubernetes API calls made after pod creation:
the secret update, the config-map update, and the proxy-service creation. -/
structure SetupEnv where
  secretUpdateFails : Bool
  configMapUpdateFails : Bool
  serviceCreateFails : Bool
deriving Repr, DecidableEq

/-- Translation of `setOwnerReferencesForResources`: when a credentials
secret exists, update it to carry exactly `refs` as owner references; then
likewise for the scripts config-map; the first failing update aborts with
its error. -/
def setOwnerReferencesForResources (env : SetupEnv) (st : ExecState)
    (refs : List OwnerReference) : Except GoError ExecState :=
  let credStep : Except GoError ExecState :=
    match st.credentials with
    | some cr =>
      if env.secretUpdateFails then .error (.msg "secret update failed")
      else .ok { st with credentials := some { cr with ownerReferences := refs } }
    | none => .ok st
  match credStep with
  | .error e => .error e
  | .ok st1 =>
    match st1.configMap with
    | some cm =>
      if env.configMapUpdateFails then .error (.msg "configmap update failed")
      else .ok { st1 with configMap := some { cm with ownerReferences := refs } }
    | none => .ok st1

/-- Translation of the tail of `setupBuildPod`, after the pod `Create`
succeeded: store the pod handle, install the pod's owner reference on the
secret and config-map (a failure aborts with a wrapped error, before any
service exists), then create the proxy services, each carrying those same
owner references. -/
def setupBuildPodAfterCreate (env : SetupEnv) (st : ExecState)
    (created : PodObj) (proxyNames : List String) : Except GoError ExecState :=
  let st0 := { st with pod := some created }
  let refs := buildPodReferences created
  match setOwnerReferencesForResources env st0 refs with
  | .error e => .error (.wrapped "error setting ownerReferences" e)
  | .ok st1 =>
    if env.serviceCreateFails then .error (.msg "error creating the proxy service")
    else .ok { st1 with
               services := proxyNames.map (fun n => ⟨n, refs⟩) }

/-- Whether an embedded API pipeline succeeded. -/
def exceptOk {α : Type} : Except GoError α → Bool
  | .ok _ => true
  | .error _ => false

/-- Translation of the constant `buildContainerName`. -/
def buildContainerName : String := "build"

/-- Translation of the constant `helperContainerName`. -/
def helperContainerName : String := "helper"

/-- Translation of `buildContainer`, restricted to the fields the claims
are about: the allowed-image verification (`verifyOk` abstracts
`common.VerifyAllowedImage`, which always passes for the internal helper
image) and the pull-policy lookup either abort, otherwise the container is
assembled with the given name, image and command. -/
def buildContainer (verifyOk : Bool) (pullPolicy : Except GoError String)
    (name image : String) (command : List String) : Except GoError Container :=
  if verifyOk then
    match pullPolicy with
    | .error e => .error e
    | .ok pp => .ok { name := name, image := image, imagePullPolicy := pp, command := command }
  else .error (.msg "disallowed image")

/-- Translation of the service-container loop of `setupBuildPod`:
`podServices[i] = buildContainer("svc-<i>", ...)` over the resolved service
images, the index starting at `i`. -/
def makeServiceContainers (verifyOk : Bool) (pullPolicy : Except GoError String) :
    Nat → List String → Except GoError (List Container)
  | _, [] => .ok []
  | i, image :: rest =>
    match buildContainer verifyOk pullPolicy ("svc-" ++ toString i) image [] with
    | .error e => .error e
    | .ok c =>
      match makeServiceContainers verifyOk pullPolicy (i + 1) rest with
      | .error e => .error e
      | .ok cs => .ok (c :: cs)

/-- Translation of `buildPermissionsInitContainer`, restricted to the
fields the claims are about: the container is named `init-permissions`, runs
the helper image, and opens permissions on the shared log file (or, on
Windows, on the logs and build directories). -/
def buildPermissionsInitContainer (pullPolicy : Except GoError String)
    (helperImage osType logFile : String) : Except GoError Container :=
  match pullPolicy with
  | .error e => .error (.wrapped "getting pull policy for permissions init container" e)
  | .ok pp =>
    .ok { name := "init-permissions"
          image := helperImage
          imagePullPolicy := pp
          command :=
            if osType = "windows" then ["pwsh", "-c", "icacls"]
            else ["sh", "-c", "touch " ++ logFile ++ " && (chmod 777 " ++ logFile ++ " || exit 0)"] }

/-- Translation of `preparePodConfig`, restricted to the fields the claims
are about: build the `build` and `helper` containers, then assemble the pod
with `GenerateName` set to the job's project-unique name, restart policy
`Never`, the given init containers, and the container list
`[build, helper] ++ services`. -/
def preparePodConfig (verifyOk : Bool) (pullPolicy : Except GoError String)
    (uniqueName ns buildImage helperImage : String) (dockerCommand : List String)
    (services : List Container) (initContainers : List Container) :
    Except GoError PodObj :=
  match buildContainer verifyOk pullPolicy buildContainerName buildImage dockerCommand with
  | .error e => .error (.wrapped "building build container" e)
  | .ok bc =>
    match buildContainer true pullPolicy helperContainerName helperImage dockerCommand with
    | .error e => .error (.wrapped "building helper container" e)
    | .ok hc =>
      .ok { meta := { name := ""
                      generateName := uniqueName
                      nsName := ns
                      uid := ""
                      ownerReferences := [] }
            restartPolicy := "Never"
            initContainers := initContainers
            containers := bc :: hc :: services
            phase := "" }

/-- A concrete sentinel recognizer used to exercise the log-processor
theorems: exactly the line `sentinel` decodes, to exit status 3. -/
def tryUExample : String → Option TrapCommandExitStatus :=
  fun l => if l = "sentinel" then some ⟨3, none⟩ else none

/-- A concrete `Run` environment: attempt 1 fails with a wrapped image-pull
error and the pull manager advances the policy; attempt 2 returns an
unrelated error. -/
def envRunW : RunEnv :=
  { stageErr := fun a =>
      if a = 1 then some (.wrapped "waiting for pod running" (.imagePull "busybox"))
      else some (.msg "exit")
    updatePolicy := fun a _ => a == 1 }

/-- A concrete pod that entered phase `Failed`. -/
def failedPod : PodObj :=
  { meta := { name := "runner-pod", generateName := "job-1", nsName := "ci", uid := "u1",
              ownerReferences := [] }
    restartPolicy := "Never", initContainers := [], containers := [], phase := "Failed" }

/-- A concrete running pod held by `stW`. -/
def podW : PodObj :=
  { meta := { name := "runner-pod-1", generateName := "job-1", nsName := "ci",
              uid := "uid-1", ownerReferences := [] }
    restartPolicy := "Never", initContainers := [], containers := [], phase := "Running" }

/-- A concrete executor state holding a pod, an orphaned secret and an
orphaned config-map. -/
def stW : ExecState :=
  { pod := some podW, credentials := some ⟨"creds-1", []⟩,
    configMap := some ⟨"scripts-1", []⟩, services := [] }

/-- A concrete cluster containing exactly the objects `stW` refers to. -/
def cW : Cluster := { pods := ["runner-pod-1"], secrets := ["creds-1"], configMaps := ["scripts-1"] }

/-- A setup environment in which every API call succeeds. -/
def envSetupW : SetupEnv :=
  { secretUpdateFails := false, configMapUpdateFails := false, serviceCreateFails := false }

/-- A concrete executor state entering `setupBuildPod`: secret and
config-map created, no pod yet. -/
def stSetupW : ExecState :=
  { pod := none, credentials := some ⟨"creds-1", []⟩,
    configMap := some ⟨"scripts-1", []⟩, services := [] }

/-- A concrete pod as returned by the pod `Create` call. -/
def createdPodW : PodObj :=
  { meta := { name := "runner-pod-abc", generateName := "job-1", nsName := "ci",
              uid := "uid-42", ownerReferences := [] }
    restartPolicy := "Never", initContainers := [], containers := [], phase := "Pending" }

/-- Deleting a name from a resource list leaves a list that no longer
contains that name, whether or not the delete found it. -/
lemma not_mem_deleteFrom_self (kind : String) (l : List String) (name : String) :
    name ∉ (deleteFrom kind l name).1 := by
  unfold deleteFrom
  split_ifs with h
  · simp
  · simpa using h

/-- Deleting an absent name is a 404 no-op. -/
lemma deleteFrom_of_not_mem (kind : String) (l : List String) (name : String)
    (h : name ∉ l) :
    deleteFrom kind l name = (l, some (.statusErr 404 (some kind))) := by
  simp [deleteFrom, h]

/-- Deleting the same name twice leaves the same resource list as deleting
it once. -/
lemma deleteFrom_idem (kind : String) (l : List String) (name : String) :
    (deleteFrom kind (deleteFrom kind l name).1 name).1 = (deleteFrom kind l name).1 := by
  rw [deleteFrom_of_not_mem kind _ name (not_mem_deleteFrom_self kind l name)]

/-- Characterization of the cluster state left by `cleanupResources`: each
resource kind is updated independently, under exactly the handle and
owner-reference conditions of the source. -/
lemma cleanupResources_cluster (st : ExecState) (c : Cluster) :
    (cleanupResources st c).1 =
      { pods :=
          match st.pod with
          | some p => (deleteFrom "pods" c.pods p.meta.name).1
          | none => c.pods
        secrets :=
          match st.credentials with
          | some cr =>
            if cr.ownerReferences = [] then (deleteFrom "secrets" c.secrets cr.name).1
            else c.secrets
          | none => c.secrets
        configMaps :=
          match st.configMap with
          | some cm =>
            if cm.ownerReferences = [] then (deleteFrom "configmaps" c.configMaps cm.name).1
            else c.configMaps
          | none => c.configMaps } := by
  obtain ⟨p, cr, cm, sv⟩ := st
  cases p <;> cases cr <;> cases cm <;>
    simp [cleanupResources] <;> split_ifs <;> simp

/-- Characterization of the delete calls issued by `cleanupResources`. -/
lemma cleanupResources_requests (st : ExecState) (c : Cluster) :
    (cleanupResources st c).2.1 =
      (match st.pod with
       | some p => [⟨"pods", p.meta.name, some PropagationPolicy⟩]
       | none => []) ++
      (match st.credentials with
       | some cr => if cr.ownerReferences = [] then [⟨"secrets", cr.name, none⟩] else []
       | none => []) ++
      (match st.configMap with
       | some cm => if cm.ownerReferences = [] then [⟨"configmaps", cm.name, none⟩] else []
       | none => []) := by
  obtain ⟨p, cr, cm, sv⟩ := st
  cases p <;> cases cr <;> cases cm <;>
    simp [cleanupResources] <;> split_ifs <;> simp

/-- Characterization of the error log produced by `cleanupResources`: one
entry per delete that failed, nothing else. -/
lemma cleanupResources_logs (st : ExecState) (c : Cluster) :
    (cleanupResources st c).2.2 =
      (match st.pod with
       | some p => if p.meta.name ∈ c.pods then [] else ["Error cleaning up pod"]
       | none => []) ++
      (match st.credentials with
       | some cr =>
         if cr.ownerReferences = [] then
           (if cr.name ∈ c.secrets then [] else ["Error cleaning up secrets"])
         else []
       | none => []) ++
      (match st.configMap with
       | some cm =>
         if cm.ownerReferences = [] then
           (if cm.name ∈ c.configMaps then [] else ["Error cleaning up configmap"])
         else []
       | none => []) := by
  obtain ⟨p, cr, cm, sv⟩ := st
  cases p <;> cases cr <;> cases cm <;>
    simp [cleanupResources, deleteFrom] <;> split_ifs <;> simp_all

/-- When the pod handle is nil, `cleanupResources` issues no pod delete. -/
lemma no_pod_request_of_pod_none (st : ExecState) (c : Cluster) (hp : st.pod = none) :
    ∀ r ∈ (cleanupResources st c).2.1, r.kind ≠ "pods" := by
  intro r hr
  rw [cleanupResources_requests, hp] at hr
  cases hcr : st.credentials with
  | none =>
    cases hcm : st.configMap with
    | none =>
      rw [hcr, hcm] at hr
      simp at hr
    | some cm =>
      rw [hcr, hcm] at hr
      simp at hr
      obtain ⟨-, rfl⟩ := hr
      simp
  | some cr =>
    cases hcm : st.configMap with
    | none =>
      rw [hcr, hcm] at hr
      simp at hr
      obtain ⟨-, rfl⟩ := hr
      simp
    | some cm =>
      rw [hcr, hcm] at hr
      simp at hr
      rcases hr with ⟨-, rfl⟩ | ⟨-, rfl⟩ <;> simp

/-- A name of the shape `svc-<suffix>` is never the build container name. -/
lemma svc_name_ne_build (s : String) : "svc-" ++ s ≠ "build" := by
  intro h
  have hd : ("svc-" ++ s).data = "build".data := congrArg String.data h
  rw [String.data_append] at hd
  simp at hd

/-- A name of the shape `svc-<suffix>` is never the helper container name. -/
lemma svc_name_ne_helper (s : String) : "svc-" ++ s ≠ "helper" := by
  intro h
  have hd : ("svc-" ++ s).data = "helper".data := congrArg String.data h
  rw [String.data_append] at hd
  simp at hd

/-- The service-container loop succeeds on allowed images and produces the
containers named `svc-<i>` in index order. -/
lemma makeServiceContainers_ok (pp : String) :
    ∀ (images : List String) (i : Nat),
      ∃ cs, makeServiceContainers true (.ok pp) i images = .ok cs ∧
        cs.map Container.name =
          (List.range images.length).map (fun k => "svc-" ++ toString (i + k)) := by
  intro images
  induction images with
  | nil =>
    intro i
    exact ⟨[], rfl, by simp⟩
  | cons img rest ih =>
    intro i
    obtain ⟨cs, hcs, hnames⟩ := ih (i + 1)
    refine ⟨{ name := "svc-" ++ toString i, image := img,
              imagePullPolicy := pp, command := [] } :: cs, ?_, ?_⟩
    · simp [makeServiceContainers, buildContainer, hcs]
    · simp only [List.length_cons, List.range_succ_eq_map, List.map_cons, List.map_map,
        hnames]
      congr 1
      apply List.map_congr_left
      intro a _
      have hadd : i + 1 + a = i + (a + 1) := by omega
      simp [Function.comp, Nat.succ_eq_add_one, hadd]

/-- Claim C1: `Run` counts attempts from 1; when the error of a stage
execution unwraps to an image-pull error and
`pullManager.UpdatePolicyForImage(attempt, err)` returns true, the loop
calls `cleanupResources`, clears the pod handle, and retries at
`attempt + 1`; when the manager declines, or the error is not an image-pull
error, or the stage succeeded, `Run` returns the stage's error unchanged. -/
theorem run_image_pull_failover (env : RunEnv) (fuel attempt : Nat) :
    Run env fuel = runFrom env fuel 1 ∧
    (∀ e image, env.stageErr attempt = some e → e.asImagePull = some image →
       (env.updatePolicy attempt image = true →
          runFrom env (fuel + 1) attempt =
            ((runFrom env fuel (attempt + 1)).1,
             .stageRun attempt :: .cleanupResourcesCall :: .podCleared ::
               (runFrom env fuel (attempt + 1)).2)) ∧
       (env.updatePolicy attempt image = false →
          runFrom env (fuel + 1) attempt = (.ret (some e), [.stageRun attempt]))) ∧
    (∀ e, env.stageErr attempt = some e → e.asImagePull = none →
       runFrom env (fuel + 1) attempt = (.ret (some e), [.stageRun attempt])) ∧
    (env.stageErr attempt = none →
       runFrom env (fuel + 1) attempt = (.ret none, [.stageRun attempt])) := by
  refine ⟨rfl, ?_, ?_, ?_⟩
  · intro e image he hi
    constructor
    · intro hu
      simp [runFrom, he, hi, hu]
    · intro hu
      simp [runFrom, he, hi, hu]
  · intro e he hi
    simp [runFrom, he, hi]
  · intro h
    simp [runFrom, h]

/-- Claim C1, witness: in the concrete environment `envRunW` the first
attempt hits the image-pull failover (cleanup, pod cleared, retry at
attempt 2) and the second attempt's unrelated error is returned
unchanged. -/
theorem run_image_pull_failover_witness :
    runFrom envRunW 2 1 =
      (.ret (some (.msg "exit")),
       [.stageRun 1, .cleanupResourcesCall, .podCleared, .stageRun 2]) := by
  have h1 := ((run_image_pull_failover envRunW 1 1).2.1
    (.wrapped "waiting for pod running" (.imagePull "busybox")) "busybox"
    (by decide) (by decide)).1 (by decide)
  have h2 : runFrom envRunW 1 2 = (.ret (some (.msg "exit")), [.stageRun 2]) :=
    (run_image_pull_failover envRunW 0 2).2.2.1 (.msg "exit") (by decide) (by decide)
  rw [h1, h2]

/-- Claim C2: a delivered line that decodes as a sentinel exit status is
pushed to the stage driver's channel and not written to the trace; any
other line is written to the trace with a newline appended; consequently
every chunk in the trace output comes from a line that does not decode as a
sentinel. -/
theorem processLogs_sentinel_split
    (tryU : String → Option TrapCommandExitStatus) (line : String)
    (lines : List String) :
    (∀ status, tryU line = some status →
       processLine tryU line = (some status, none)) ∧
    (tryU line = none →
       processLine tryU line = (none, some (line ++ "\n"))) ∧
    (∀ chunk ∈ (processLines tryU lines).2,
       ∃ l, l ∈ lines ∧ chunk = l ++ "\n" ∧ tryU l = none) := by
  refine ⟨?_, ?_, ?_⟩
  · intro status h
    simp [processLine, h]
  · intro h
    simp [processLine, h]
  · induction lines with
    | nil => simp [processLines]
    | cons a as ih =>
      intro chunk hc
      rcases h : tryU a with _ | st
      · simp [processLines, processLine, h] at hc
        rcases hc with hc | hc
        · exact ⟨a, by simp, by simp [hc], h⟩
        · obtain ⟨l, hl, he, hu⟩ := ih chunk hc
          exact ⟨l, by simp [hl], he, hu⟩
      · simp [processLines, processLine, h] at hc
        obtain ⟨l, hl, he, hu⟩ := ih chunk hc
        exact ⟨l, by simp [hl], he, hu⟩

/-- Claim C2, witness: under the concrete recognizer `tryUExample` the
sentinel line is pushed and suppressed while an ordinary line reaches the
trace with a newline. -/
theorem processLogs_sentinel_split_witness :
    processLine tryUExample "sentinel" = (some ⟨3, none⟩, none) ∧
    processLine tryUExample "echo hi" = (none, some "echo hi\n") := by
  refine ⟨?_, ?_⟩
  · exact (processLogs_sentinel_split tryUExample "sentinel" []).1 ⟨3, none⟩ (by decide)
  · exact (processLogs_sentinel_split tryUExample "echo hi" []).2.1 (by decide)

/-- Claim C3: with the attach succeeding, a sentinel exit status of 0 makes
the stage return success, and a non-zero code `c` makes it return a
`*common.BuildError` whose `ExitCode` is exactly `c` and whose inner error
is the command-terminated error. -/
theorem attach_stage_exit_code (status : TrapCommandExitStatus) :
    (status.commandExitCode = 0 →
       runWithAttachClassify (runInContainerResult none status) = none) ∧
    (status.commandExitCode ≠ 0 →
       runWithAttachClassify (runInContainerResult none status) =
         some (.buildError (.commandTerminated status.commandExitCode)
           status.commandExitCode) ∧
       ∀ e, runWithAttachClassify (runInContainerResult none status) = some e →
         e.isBuildError = true) := by
  constructor
  · intro h
    simp [runInContainerResult, runWithAttachClassify, h]
  · intro h
    constructor
    · simp [runInContainerResult, runWithAttachClassify, GoError.asCommandTerminated, h]
    · intro e he
      simp [runInContainerResult, runWithAttachClassify, GoError.asCommandTerminated, h] at he
      simp [← he, GoError.isBuildError]

/-- Claim C3, witness: exit status 0 returns success and exit status 7
returns a build error with exit code 7. -/
theorem attach_stage_exit_code_witness :
    runWithAttachClassify (runInContainerResult none ⟨0, none⟩) = none ∧
    runWithAttachClassify (runInContainerResult none ⟨7, none⟩) =
      some (.buildError (.commandTerminated 7) 7) := by
  refine ⟨(attach_stage_exit_code ⟨0, none⟩).1 rfl,
          ((attach_stage_exit_code ⟨7, none⟩).2 (by decide)).1⟩

/-- Claim C4, counterexample: when the watcher observes the pod in phase
`Failed`, `checkPodStatus` produces the pod-phase error and the
`podStatusCh` branch of `runWithAttach` returns it wrapped in a
`*common.BuildError` — a build error, where the claim asserts an
infrastructure (runner) error. -/
theorem pod_phase_build_error_counterexample :
    checkPodStatus "runner-pod" (.ok failedPod) = some (.podPhase "runner-pod" "Failed") ∧
    podStatusBranch (.podPhase "runner-pod" "Failed") =
      .buildError (.podPhase "runner-pod" "Failed") 0 ∧
    (podStatusBranch (.podPhase "runner-pod" "Failed")).isBuildError = true := by
  refine ⟨by decide, by decide, by decide⟩

/-- Claim C4, amended: a pod observed in any phase other than `Running`
yields a pod-phase error which the stage returns wrapped in a
`*common.BuildError`; only a pod-not-found error is surfaced unwrapped. -/
theorem pod_phase_amended (podName : String) (pod : PodObj) (e : GoError) :
    (pod.phase ≠ "Running" →
       checkPodStatus podName (.ok pod) = some (.podPhase podName pod.phase)) ∧
    (isKubernetesPodNotFoundError (some e) = false →
       podStatusBranch e = .buildError e 0) ∧
    (isKubernetesPodNotFoundError (some e) = true → podStatusBranch e = e) := by
  refine ⟨?_, ?_, ?_⟩
  · intro h
    simp [checkPodStatus, h]
  · intro h
    simp [podStatusBranch, h]
  · intro h
    simp [podStatusBranch, h]

/-- Claim C4, witness for the amended statement: the failed pod produces
the pod-phase error, a generic error is wrapped as a build error, and the
typed 404 error passes through unwrapped. -/
theorem pod_phase_amended_witness :
    checkPodStatus "runner-pod" (.ok failedPod) = some (.podPhase "runner-pod" "Failed") ∧
    podStatusBranch (.msg "boom") = .buildError (.msg "boom") 0 ∧
    podStatusBranch (.statusErr 404 (some "pods")) = .statusErr 404 (some "pods") := by
  refine ⟨?_, ?_, ?_⟩
  · exact (pod_phase_amended "runner-pod" failedPod (.msg "boom")).1 (by decide)
  · exact (pod_phase_amended "runner-pod" failedPod (.msg "boom")).2.1 (by decide)
  · exact (pod_phase_amended "runner-pod" failedPod (.statusErr 404 (some "pods"))).2.2 (by decide)

/-- Claim C5: `cleanupResources` issues a pod delete with foreground
propagation exactly when the pod handle is non-nil, deletes the secret and
config-map exactly when the handle is non-nil with an empty owner-reference
list, and logs exactly the failed deletions — returning no error (its
return type carries only the cluster, the issued calls and the log). -/
theorem cleanup_delete_discipline (st : ExecState) (c : Cluster) :
    (cleanupResources st c).2.1 =
      (match st.pod with
       | some p => [⟨"pods", p.meta.name, some PropagationPolicy⟩]
       | none => []) ++
      (match st.credentials with
       | some cr => if cr.ownerReferences = [] then [⟨"secrets", cr.name, none⟩] else []
       | none => []) ++
      (match st.configMap with
       | some cm => if cm.ownerReferences = [] then [⟨"configmaps", cm.name, none⟩] else []
       | none => []) ∧
    (cleanupResources st c).2.2 =
      (match st.pod with
       | some p => if p.meta.name ∈ c.pods then [] else ["Error cleaning up pod"]
       | none => []) ++
      (match st.credentials with
       | some cr =>
         if cr.ownerReferences = [] then
           (if cr.name ∈ c.secrets then [] else ["Error cleaning up secrets"])
         else []
       | none => []) ++
      (match st.configMap with
       | some cm =>
         if cm.ownerReferences = [] then
           (if cm.name ∈ c.configMaps then [] else ["Error cleaning up configmap"])
         else []
       | none => []) :=
  ⟨cleanupResources_requests st c, cleanupResources_logs st c⟩

/-- Claim C7: cleanup is idempotent on the cluster — running
`cleanupResources` twice from the same executor state leaves the cluster
exactly as one run does — and for a pod present in the cluster the first
run performs the one effective delete while a repeated delete of the
already-deleted pod is a 404 no-op. -/
theorem cleanup_idempotent (st : ExecState) (c : Cluster) :
    (cleanupResources st (cleanupResources st c).1).1 = (cleanupResources st c).1 ∧
    (∀ p, st.pod = some p → p.meta.name ∈ c.pods →
       p.meta.name ∉ (cleanupResources st c).1.pods ∧
       deleteFrom "pods" (cleanupResources st c).1.pods p.meta.name =
         ((cleanupResources st c).1.pods, some (.statusErr 404 (some "pods")))) := by
  constructor
  · rw [cleanupResources_cluster st c, cleanupResources_cluster st]
    obtain ⟨p, cr, cm, sv⟩ := st
    cases p <;> cases cr <;> cases cm <;>
      simp [Cluster.mk.injEq, deleteFrom_idem] <;>
      (try split_ifs) <;> simp_all [deleteFrom_idem]
  · intro p hp hmem
    have hpods : (cleanupResources st c).1.pods = (deleteFrom "pods" c.pods p.meta.name).1 := by
      rw [cleanupResources_cluster st c]
      simp [hp]
    rw [hpods]
    refine ⟨not_mem_deleteFrom_self _ _ _, ?_⟩
    exact deleteFrom_of_not_mem _ _ _ (not_mem_deleteFrom_self _ _ _)

/-- Claim C7, witness: on the concrete state `stW` and cluster `cW` the
second cleanup changes nothing and the repeated pod delete is the 404
no-op. -/
theorem cleanup_idempotent_witness :
    (cleanupResources stW (cleanupResources stW cW).1).1 = (cleanupResources stW cW).1 ∧
    "runner-pod-1" ∉ (cleanupResources stW cW).1.pods ∧
    deleteFrom "pods" (cleanupResources stW cW).1.pods "runner-pod-1" =
      ((cleanupResources stW cW).1.pods, some (.statusErr 404 (some "pods"))) := by
  have h := cleanup_idempotent stW cW
  have h2 := h.2 podW rfl (by decide)
  exact ⟨h.1, h2.1, h2.2⟩

/-- Claim C8: `Finish` nulls the pod handle exactly on the typed
pod-not-found error — leaving the other executor fields unchanged, so a
subsequent cleanup attempts no pod delete — and leaves the state entirely
unchanged on any other error value. -/
theorem finish_null_pod_on_not_found (st : ExecState) (err : Option GoError) (c : Cluster) :
    (isKubernetesPodNotFoundError err = true →
       (Finish st err).pod = none ∧
       (Finish st err).credentials = st.credentials ∧
       (Finish st err).configMap = st.configMap ∧
       (Finish st err).services = st.services ∧
       ∀ r ∈ (cleanupResources (Finish st err) c).2.1, r.kind ≠ "pods") ∧
    (isKubernetesPodNotFoundError err = false → Finish st err = st) := by
  constructor
  · intro h
    refine ⟨by simp [Finish, h], by simp [Finish, h], by simp [Finish, h],
            by simp [Finish, h], ?_⟩
    exact no_pod_request_of_pod_none _ c (by simp [Finish, h])
  · intro h
    simp [Finish, h]

/-- Claim C8, witness: a 404 `pods` status error nulls the pod handle of
`stW`, while an unrelated error leaves `stW` unchanged. -/
theorem finish_null_pod_on_not_found_witness :
    (Finish stW (some (.statusErr 404 (some "pods")))).pod = none ∧
    Finish stW (some (.msg "boom")) = stW := by
  refine ⟨?_, ?_⟩
  · exact ((finish_null_pod_on_not_found stW (some (.statusErr 404 (some "pods"))) cW).1
      (by decide)).1
  · exact (finish_null_pod_on_not_found stW (some (.msg "boom")) cW).2 (by decide)

/-- Claim C6: after pod creation the secret (when one exists) and the
config-map are updated to carry exactly the one owner reference of kind
`Pod` naming the created pod's name and UID; a failing update aborts setup
with an error, and on success the proxy services are created afterwards
with those same owner references already installed. -/
theorem owner_refs_installed_before_services (env : SetupEnv) (st : ExecState)
    (created : PodObj) (proxyNames : List String) :
    buildPodReferences created =
      [{ apiVersion := "v1", kind := "Pod",
         name := created.meta.name, uid := created.meta.uid }] ∧
    (env.secretUpdateFails = false → env.configMapUpdateFails = false →
     env.serviceCreateFails = false →
       setupBuildPodAfterCreate env st created proxyNames =
         .ok { pod := some created
               credentials := st.credentials.map
                 (fun cr => { cr with ownerReferences := buildPodReferences created })
               configMap := st.configMap.map
                 (fun cm => { cm with ownerReferences := buildPodReferences created })
               services := proxyNames.map
                 (fun n => ⟨n, buildPodReferences created⟩) }) ∧
    ((env.secretUpdateFails = true ∧ st.credentials ≠ none) ∨
     (env.configMapUpdateFails = true ∧ st.configMap ≠ none ∧
        (env.secretUpdateFails = false ∨ st.credentials = none)) →
       exceptOk (setupBuildPodAfterCreate env st created proxyNames) = false) := by
  refine ⟨rfl, ?_, ?_⟩
  · intro h1 h2 h3
    rcases hcr : st.credentials with _ | cr <;> rcases hcm : st.configMap with _ | cm <;>
      simp [setupBuildPodAfterCreate, setOwnerReferencesForResources, hcr, hcm, h1, h2, h3]
  · intro h
    rcases h with ⟨h1, h2⟩ | ⟨h1, h2, h3⟩
    · rcases hcr : st.credentials with _ | cr
      · exact absurd hcr h2
      · simp [setupBuildPodAfterCreate, setOwnerReferencesForResources, hcr, h1, exceptOk]
    · rcases hcm : st.configMap with _ | cm
      · exact absurd hcm h2
      · rcases h3 with h3 | h3
        · rcases hcr : st.credentials with _ | cr <;>
            simp [setupBuildPodAfterCreate, setOwnerReferencesForResources,
              hcr, hcm, h1, h3, exceptOk]
        · simp [setupBuildPodAfterCreate, setOwnerReferencesForResources,
            h3, hcm, h1, exceptOk]

/-- Claim C6, witness: with every API call succeeding, the concrete setup
installs the pod's owner reference on the secret, the config-map and the
created proxy service; with the secret update failing, setup aborts. -/
theorem owner_refs_installed_before_services_witness :
    setupBuildPodAfterCreate envSetupW stSetupW createdPodW ["proxy-svc-0"] =
      .ok { pod := some createdPodW
            credentials := some ⟨"creds-1", buildPodReferences createdPodW⟩
            configMap := some ⟨"scripts-1", buildPodReferences createdPodW⟩
            services := [⟨"proxy-svc-0", buildPodReferences createdPodW⟩] } ∧
    exceptOk (setupBuildPodAfterCreate
      { envSetupW with secretUpdateFails := true } stSetupW createdPodW []) = false := by
  constructor
  · have h := ((owner_refs_installed_before_services envSetupW stSetupW
      createdPodW ["proxy-svc-0"]).2.1) rfl rfl rfl
    simpa [stSetupW] using h
  · exact (owner_refs_installed_before_services
      { envSetupW with secretUpdateFails := true } stSetupW createdPodW []).2.2
      (Or.inl ⟨rfl, by simp [stSetupW]⟩)

/-- Claim C9: the pod assembled by the pod builder carries the job's
generated name, restart policy `Never`, the `init-permissions` init
container, and the main-container list `build`, `helper`, then `svc-i` for
each service — with exactly one container named `build` and exactly one
named `helper`. -/
theorem pod_construction_invariants (pp uniqueName ns bImg hImg osType logFile : String)
    (dockerCommand : List String) (svcImages : List String) :
    ∃ initC svcs pod,
      buildPermissionsInitContainer (.ok pp) hImg osType logFile = .ok initC ∧
      makeServiceContainers true (.ok pp) 0 svcImages = .ok svcs ∧
      preparePodConfig true (.ok pp) uniqueName ns bImg hImg dockerCommand svcs [initC] =
        .ok pod ∧
      pod.meta.generateName = uniqueName ∧
      pod.restartPolicy = "Never" ∧
      pod.initContainers.map Container.name = ["init-permissions"] ∧
      pod.containers.map Container.name =
        buildContainerName :: helperContainerName ::
          (List.range svcImages.length).map (fun i => "svc-" ++ toString i) ∧
      (pod.containers.map Container.name).count buildContainerName = 1 ∧
      (pod.containers.map Container.name).count helperContainerName = 1 := by
  obtain ⟨svcs, hs, hnames⟩ := makeServiceContainers_ok pp svcImages 0
  have hnames0 : svcs.map Container.name =
      (List.range svcImages.length).map (fun i => "svc-" ++ toString i) := by
    rw [hnames]
    apply List.map_congr_left
    intro k _
    simp
  have hb : "build" ∉ svcs.map Container.name := by
    rw [hnames0]
    simp only [List.mem_map]
    rintro ⟨i, -, h⟩
    exact svc_name_ne_build _ h
  have hh : "helper" ∉ svcs.map Container.name := by
    rw [hnames0]
    simp only [List.mem_map]
    rintro ⟨i, -, h⟩
    exact svc_name_ne_helper _ h
  refine ⟨_, svcs, _, rfl, hs, rfl, rfl, rfl, rfl, ?_, ?_, ?_⟩
  · simp [preparePodConfig, buildContainer, buildContainerName, helperContainerName, hnames0]
  · simp [preparePodConfig, buildContainer, List.count_cons, buildContainerName,
      helperContainerName, List.count_eq_zero.mpr hb]
  · simp [preparePodConfig, buildContainer, List.count_cons, buildContainerName,
      helperContainerName, List.count_eq_zero.mpr hh]

/-- Claim C10: when the log processor's error channel delivers an error,
the fabricated exit status carries the code embedded in a wrapped
`exec.CodeExitError` when there is one and the fixed code 1000 otherwise,
and feeding that status to the waiting stage driver makes it report exactly
that value (success for 0, a command-terminated error carrying the code
otherwise). -/
theorem log_processor_error_exit_code (err : Option GoError) :
    (∀ e code, err = some e → e.asCodeExit = some code →
       processLogsErrStatus err = ⟨code, none⟩) ∧
    (err = none → processLogsErrStatus err = ⟨unknownLogProcessorExitCode, none⟩) ∧
    (∀ e, err = some e → e.asCodeExit = none →
       processLogsErrStatus err = ⟨unknownLogProcessorExitCode, none⟩) ∧
    unknownLogProcessorExitCode = 1000 ∧
    runInContainerResult none (processLogsErrStatus err) =
      (if getExitCode err = 0 then none
       else some (.commandTerminated (getExitCode err))) := by
  refine ⟨?_, ?_, ?_, rfl, ?_⟩
  · intro e code he hc
    simp [processLogsErrStatus, getExitCode, he, hc]
  · intro he
    simp [processLogsErrStatus, getExitCode, he]
  · intro e he hc
    simp [processLogsErrStatus, getExitCode, he, hc]
  · simp [runInContainerResult, processLogsErrStatus]

/-- Claim C10, witness: a wrapped `exec.CodeExitError` with code 7 yields
the fabricated status 7 and unblocks the driver with a command-terminated
error carrying 7; an unrecognized error yields the fixed code 1000. -/
theorem log_processor_error_exit_code_witness :
    processLogsErrStatus (some (.wrapped "stream" (.codeExit 7))) = ⟨7, none⟩ ∧
    processLogsErrStatus (some (.msg "eof")) = ⟨1000, none⟩ ∧
    runInContainerResult none (processLogsErrStatus (some (.wrapped "stream" (.codeExit 7)))) =
      some (.commandTerminated 7) := by
  refine ⟨?_, ?_, ?_⟩
  · exact (log_processor_error_exit_code (some (.wrapped "stream" (.codeExit 7)))).1
      (.wrapped "stream" (.codeExit 7)) 7 rfl (by decide)
  · have h := (log_processor_error_exit_code (some (.msg "eof"))).2.2.1
      (.msg "eof") rfl (by decide)
    simpa [unknownLogProcessorExitCode] using h
  · have h := (log_processor_error_exit_code (some (.wrapped "stream" (.codeExit 7)))).2.2.2.2
    simpa [getExitCode, GoError.asCodeExit] using h

end KubernetesExecutor
